import Mathlib

/-!
Verification of the ScopeDoom bridge (doom_socket.c, doomgeneric_kicad_dual_v2.c).

The C sources are shallowly embedded: machine `int`/`fixed_t` arithmetic is
modelled on `Int` with explicit wrapping to the signed 32-bit range where the
C code can overflow, byte streams are `List Nat`, and the socket layer's
partial reads/writes are driven by explicit kernel-result schedules.
-/

/-! ## Signed 32-bit machine integers -/

/-- The signed 32-bit range of the C `int`/`fixed_t` type. -/
def I32 (n : Int) : Prop := -(2 ^ 31) ≤ n ∧ n < 2 ^ 31

instance (n : Int) : Decidable (I32 n) := by unfold I32; infer_instance

/-- Wrap an integer to the signed 32-bit range, the effect of C's
(two's-complement) overflow on `int` arithmetic. -/
def toInt32 (n : Int) : Int := (n + 2 ^ 31) % 2 ^ 32 - 2 ^ 31

theorem toInt32_mem (n : Int) : I32 (toInt32 n) := by
  unfold toInt32 I32
  norm_num
  omega

theorem toInt32_eq_self {n : Int} (h : I32 n) : toInt32 n = n := by
  unfold I32 at h
  unfold toInt32
  norm_num at h ⊢
  omega

/-! ## Decimal rendering of integers (the serializer's `%d`)

Bytes are modelled as `Nat` ASCII codes.  `natDigsAux` is fuelled so that it
is structurally recursive and kernel-reducible; fuel `n + 1` always suffices. -/

def natDigsAux : Nat → Nat → List Nat
  | 0, _ => []
  | fuel + 1, n => if n < 10 then [48 + n] else natDigsAux fuel (n / 10) ++ [48 + n % 10]

/-- Decimal ASCII digits of a natural number. -/
def natDigs (n : Nat) : List Nat := natDigsAux (n + 1) n

theorem natDigsAux_len : ∀ fuel n k, n < fuel → n < 10 ^ k → 0 < k →
    (natDigsAux fuel n).length ≤ k := by
  intro fuel
  induction fuel with
  | zero => intro n k h; omega
  | succ f ih =>
    intro n k hf hk hk0
    unfold natDigsAux
    by_cases h10 : n < 10
    · simp [h10]; omega
    · simp only [h10, if_false, List.length_append, List.length_cons,
        List.length_nil]
      have hk2 : 2 ≤ k := by
        by_contra hlt
        have : k = 1 := by omega
        subst this
        simp at hk
        omega
      have h1 : n / 10 < f := by
        have : n / 10 < n := Nat.div_lt_self (by omega) (by omega)
        omega
      have h2 : n / 10 < 10 ^ (k - 1) := by
        have hkk : 10 ^ k = 10 ^ (k - 1) * 10 := by
          conv_lhs => rw [show k = (k - 1) + 1 by omega]
          rw [pow_succ]
        rw [Nat.div_lt_iff_lt_mul (by omega)]
        omega
      have := ih (n / 10) (k - 1) h1 h2 (by omega)
      omega

theorem natDigs_len {n k : Nat} (hk : n < 10 ^ k) (hk0 : 0 < k) :
    (natDigs n).length ≤ k :=
  natDigsAux_len (n + 1) n k (by omega) hk hk0

/-- ASCII rendering of a C `int` by `printf("%d", n)`: an optional minus sign
followed by the decimal digits of the absolute value. -/
def intChars (n : Int) : List Nat :=
  if n < 0 then 45 :: natDigs n.natAbs else natDigs n.toNat

theorem intChars_len {n : Int} (h : I32 n) : (intChars n).length ≤ 11 := by
  unfold intChars
  have hpow : (10 : Nat) ^ 10 = 10000000000 := by norm_num
  by_cases hn : n < 0
  · simp only [hn, if_true, List.length_cons]
    have habs : n.natAbs ≤ 2 ^ 31 := by
      rcases h with ⟨h1, _⟩; omega
    have : (natDigs n.natAbs).length ≤ 10 :=
      natDigs_len (by omega) (by omega)
    omega
  · simp only [hn, if_false]
    have : n.toNat < 2 ^ 31 := by rcases h with ⟨_, h2⟩; omega
    have : (natDigs n.toNat).length ≤ 10 :=
      natDigs_len (by omega) (by omega)
    omega

/-! ## Depth bucket (`distance` computation in extract_vectors_to_json)

Translated from doomgeneric_kicad_dual_v2.c lines 153–162 and 218–227 (the
two inlined copies are identical).  The multiplication
`(scale - 0x800) * 999` is C `int` arithmetic, hence wrapped; the division is
C's truncating `/`. -/

def depthBucketRaw (s : Int) : Int :=
  if s > 0x20000 then 0
  else if s < 0x800 then 999
  else 999 - (toInt32 ((s - 0x800) * 999)).tdiv (0x20000 - 0x800)

/-- The sequential clamp `if (distance < 0) distance = 0;`. -/
def clampLow (d : Int) : Int := if d < 0 then 0 else d

/-- The sequential clamp `if (distance > 999) distance = 999;`. -/
def clampHigh (d : Int) : Int := if d > 999 then 999 else d

def depthBucket (s : Int) : Int := clampHigh (clampLow (depthBucketRaw s))

theorem depthBucket_range (s : Int) : 0 ≤ depthBucket s ∧ depthBucket s ≤ 999 := by
  unfold depthBucket clampHigh clampLow
  split <;> split <;> omega

theorem depthBucketRaw_inrange {s : Int} (h1 : 0x800 ≤ s) (h2 : s ≤ 0x20000) :
    0 ≤ (s - 0x800) * 999 ∧ (s - 0x800) * 999 < 2 ^ 31 ∧
    depthBucketRaw s = 999 - ((s - 0x800) * 999).tdiv 129024 ∧
    0 ≤ (s - 0x800) * 999 / 129024 ∧ (s - 0x800) * 999 / 129024 ≤ 999 := by
  have hp0 : 0 ≤ (s - 0x800) * 999 := Int.mul_nonneg (by omega) (by norm_num)
  have hp1 : (s - 0x800) * 999 ≤ 129024 * 999 :=
    Int.mul_le_mul_of_nonneg_right (by omega) (by norm_num)
  have hq1 : (s - 0x800) * 999 / 129024 ≤ 999 := by
    calc (s - 0x800) * 999 / 129024 ≤ 129024 * 999 / 129024 :=
          Int.ediv_le_ediv (by norm_num) hp1
      _ = 999 := by norm_num
  refine ⟨hp0, by omega, ?_, Int.ediv_nonneg hp0 (by norm_num), hq1⟩
  unfold depthBucketRaw
  rw [if_neg (by omega), if_neg (by omega),
    toInt32_eq_self ⟨by omega, by omega⟩]
  norm_num

/-- Claim C7: the depth-bucket function maps a 16.16 fixed-point scale `s` to
distance 0 when `s > 0x20000`, 999 when `s < 0x800`, and otherwise
`999 − ((s − 0x800)·999)/(0x20000 − 0x800)` with truncating integer division,
the result clamped to `[0, 999]`; the intermediate product does not overflow a
signed 32-bit int for `s` in the formula's range, and the boundary values are
`0x20000 ↦ 0`, `0x800 ↦ 999`, `0x10400 ↦ 500`. -/
theorem depthBucket_spec (s : Int) :
    (s > 0x20000 → depthBucket s = 0) ∧
    (s < 0x800 → depthBucket s = 999) ∧
    (0x800 ≤ s → s ≤ 0x20000 →
      0 ≤ (s - 0x800) * 999 ∧ (s - 0x800) * 999 < 2 ^ 31 ∧
      toInt32 ((s - 0x800) * 999) = (s - 0x800) * 999 ∧
      depthBucket s = 999 - ((s - 0x800) * 999).tdiv (0x20000 - 0x800)) ∧
    (0 ≤ depthBucket s ∧ depthBucket s ≤ 999) ∧
    depthBucket (0x20000 : Int) = 0 ∧ depthBucket (0x800 : Int) = 999 ∧
    depthBucket (0x10400 : Int) = 500 := by
  refine ⟨?_, ?_, ?_, depthBucket_range s, by decide, by decide, by decide⟩
  · intro h
    have hr : depthBucketRaw s = 0 := by
      unfold depthBucketRaw; rw [if_pos h]
    unfold depthBucket clampLow clampHigh
    rw [hr]
    norm_num
  · intro h
    have hr : depthBucketRaw s = 999 := by
      unfold depthBucketRaw; rw [if_neg (by omega), if_pos h]
    unfold depthBucket clampLow clampHigh
    rw [hr]
    norm_num
  · intro h1 h2
    obtain ⟨hp0, hp31, hraw, hq0, hq1⟩ := depthBucketRaw_inrange h1 h2
    refine ⟨hp0, hp31, toInt32_eq_self ⟨by omega, hp31⟩, ?_⟩
    have htd : ((s - 0x800) * 999).tdiv 129024 = (s - 0x800) * 999 / 129024 :=
      Int.tdiv_eq_ediv hp0 (by norm_num)
    unfold depthBucket clampLow clampHigh
    rw [hraw, htd]
    norm_num
    omega

/-- Witness for C7 at the concrete scale `0x10000`. -/
theorem depthBucket_spec_witness :
    ((0x800 : Int) ≤ 0x10000 ∧ (0x10000 : Int) ≤ 0x20000) ∧
    depthBucket (0x10000 : Int) =
      999 - (((0x10000 : Int) - 0x800) * 999).tdiv (0x20000 - 0x800) :=
  ⟨⟨by decide, by decide⟩,
    ((depthBucket_spec 0x10000).2.2.1 (by decide) (by decide)).2.2.2⟩

/-! ## Renderer frame snapshot (sampler inputs)

Structures mirror the fields of `drawseg_t`, `vissprite_t`, `sector_t` and
`pspdef_t` that `extract_vectors_to_json` reads.  `Option` encodes the NULL
checks the code performs (`curline`, `frontsector`, `psprites[ps_weapon].state`). -/

/-- Modelled from the spec: the wall loop's upper bound `MAXDRAWSEGS = 256`,
from the DOOM renderer's `r_bsp.h`, which is not under `src/`. -/
def MAXDRAWSEGS : Nat := 256

/-- Modelled from the spec: the sprite loop's upper bound `MAXVISSPRITES = 128`,
from the DOOM renderer's `r_things.h`, which is not under `src/`. -/
def MAXVISSPRITES : Nat := 128

/-- Modelled from the spec: `fixedmul(a, b) = (a · b) >> 16` with 64-bit
intermediates (the renderer's `FixedMul` in `m_fixed.c`, not under `src/`);
`>>` is an arithmetic shift (floor division) and the result is truncated back
to the 32-bit `fixed_t`. -/
def FixedMul (a b : Int) : Int := toInt32 (a * b / 65536)

structure Sector where
  ceilingheight : Int
  floorheight : Int

structure Seg where
  frontsector : Option Sector

structure DrawSeg where
  x1 : Int
  x2 : Int
  curline : Option Seg
  scale1 : Int
  scale2 : Int
  silhouette : Int

structure VisSprite where
  x1 : Int
  x2 : Int
  scale : Int
  gzt : Int
  gz : Int
  mobjtype : Int

structure PspSlot where
  sx : Int
  sy : Int

structure Frame where
  frameCount : Int
  drawsegs : List DrawSeg
  vissprites : List VisSprite
  viewwidth : Int
  viewheight : Int
  centeryfrac : Int
  viewz : Int
  weapon : Option PspSlot

/-! ## Projection and clipping -/

/-- `if (y < 0) y = 0;` -/
def clampNeg (y : Int) : Int := if y < 0 then 0 else y

/-- `if (y >= bound) y = bound - 1;` — the `bound - 1` is C `int` arithmetic. -/
def clampMax (bound y : Int) : Int := if y ≥ bound then toInt32 (bound - 1) else y

/-- The sequential pair of clamps applied to every projected coordinate. -/
def clampAxis (bound y : Int) : Int := clampMax bound (clampNeg y)

/-- `scale <= 0` is replaced by `1` before any use (lines 150–151, 216). -/
def fixScale (s : Int) : Int := if s ≤ 0 then 1 else s

/-- Projected screen Y of world height `wz` at scale `s`:
`(centeryfrac - FixedMul(wz - viewz, s)) >> FRACBITS`, clamped to the view.
Both subtractions are 32-bit `fixed_t` arithmetic; `>>` is an arithmetic
shift, i.e. floor division by 65536. -/
def projY (cf vz vh wz s : Int) : Int :=
  clampAxis vh (toInt32 (cf - FixedMul (toInt32 (wz - vz)) s) / 65536)

/-! ## Sampled records -/

structure WallRec where
  x1 : Int
  y1Top : Int
  y1Bot : Int
  x2 : Int
  y2Top : Int
  y2Bot : Int
  dist : Int
  sil : Int
  deriving DecidableEq

structure EntRec where
  x : Int
  yTop : Int
  yBot : Int
  height : Int
  type : Int
  dist : Int
  deriving DecidableEq

/-- Wall extraction for one drawseg (lines 132–198): the x-bounds filter,
the NULL checks, the scale fixups, the depth bucket, and the four projected
and clamped Y values. Returns `none` when the drawseg is rejected. -/
def wallVals (vw vh cf vz : Int) (d : DrawSeg) : Option WallRec :=
  if d.x1 < 0 ∨ d.x2 < 0 ∨ d.x1 ≥ vw ∨ d.x2 ≥ vw ∨ d.x1 > d.x2 then none
  else
    match d.curline with
    | none => none
    | some seg =>
      match seg.frontsector with
      | none => none
      | some sec =>
        some {
          x1 := d.x1
          y1Top := projY cf vz vh sec.ceilingheight (fixScale d.scale1)
          y1Bot := projY cf vz vh sec.floorheight (fixScale d.scale1)
          x2 := d.x2
          y2Top := projY cf vz vh sec.ceilingheight (fixScale d.scale2)
          y2Bot := projY cf vz vh sec.floorheight (fixScale d.scale2)
          dist := depthBucket (fixScale d.scale1)
          sil := d.silhouette }

/-- `sprite_height = y_bottom - y_top; if (sprite_height < 5) sprite_height = 5;` -/
def entHeight (yt yb : Int) : Int :=
  if toInt32 (yb - yt) < 5 then 5 else toInt32 (yb - yt)

/-- Sprite extraction for one vissprite (lines 205–256): the x-bounds filter,
the midpoint x (C `int` addition then truncating division), the scale fixup,
the depth bucket, the projected Y values and the height floor of 5. -/
def spriteVals (vw vh cf vz : Int) (v : VisSprite) : Option EntRec :=
  if v.x1 < 0 ∨ v.x2 < 0 ∨ v.x1 ≥ vw ∨ v.x2 ≥ vw then none
  else
    some {
      x := (toInt32 (v.x1 + v.x2)).tdiv 2
      yTop := projY cf vz vh v.gzt (fixScale v.scale)
      yBot := projY cf vz vh v.gz (fixScale v.scale)
      height := entHeight (projY cf vz vh v.gzt (fixScale v.scale))
                          (projY cf vz vh v.gz (fixScale v.scale))
      type := v.mobjtype
      dist := depthBucket (fixScale v.scale) }

/-- Weapon overlay position (lines 264–271):
`wx = (sx >> 16) + viewwidth / 2` and `wy = (sy >> 16) + viewheight - 32`,
each then clamped; all additions are C `int` arithmetic. -/
def weaponVals (vw vh : Int) (w : PspSlot) : Int × Int :=
  (clampAxis vw (toInt32 (w.sx / 65536 + vw.tdiv 2)),
   clampAxis vh (toInt32 (toInt32 (w.sy / 65536 + vh) - 32)))

/-- The walls emitted by a frame, in drawseg order. -/
def emittedWalls (f : Frame) : List WallRec :=
  (f.drawsegs.take MAXDRAWSEGS).filterMap
    (wallVals f.viewwidth f.viewheight f.centeryfrac f.viewz)

/-- The entities emitted by a frame, in vissprite order. -/
def emittedEnts (f : Frame) : List EntRec :=
  (f.vissprites.take MAXVISSPRITES).filterMap
    (spriteVals f.viewwidth f.viewheight f.centeryfrac f.viewz)

/-! ## Frame serializer (the snprintf sequence of extract_vectors_to_json)

Byte lists are ASCII codes; the literal chunks are spelled out with their
text in the adjacent comments. -/

/-- ASCII of the wall tuple `[x1,y1_top,y1_bottom,x2,y2_top,y2_bottom,distance,silhouette]`. -/
def wallBytes (w : WallRec) : List Nat :=
  91 :: (intChars w.x1 ++ 44 :: intChars w.y1Top ++ 44 :: intChars w.y1Bot ++
    44 :: intChars w.x2 ++ 44 :: intChars w.y2Top ++ 44 :: intChars w.y2Bot ++
    44 :: intChars w.dist ++ 44 :: intChars w.sil ++ [93])

/-- The wall loop: a separating comma is emitted whenever the count of walls
already emitted (`wall_output`) is positive. -/
def wallsEmit (vw vh cf vz : Int) : List DrawSeg → Nat → List Nat
  | [], _ => []
  | d :: rest, cnt =>
    match wallVals vw vh cf vz d with
    | none => wallsEmit vw vh cf vz rest cnt
    | some w =>
      (if cnt > 0 then [44] else []) ++ wallBytes w ++ wallsEmit vw vh cf vz rest (cnt + 1)

/-- ASCII of one entity object
`{"x":..,"y_top":..,"y_bottom":..,"height":..,"type":..,"distance":..}`. -/
def entBytes (e : EntRec) : List Nat :=
  [123, 34, 120, 34, 58] ++ intChars e.x ++
  [44, 34, 121, 95, 116, 111, 112, 34, 58] ++ intChars e.yTop ++
  [44, 34, 121, 95, 98, 111, 116, 116, 111, 109, 34, 58] ++ intChars e.yBot ++
  [44, 34, 104, 101, 105, 103, 104, 116, 34, 58] ++ intChars e.height ++
  [44, 34, 116, 121, 112, 101, 34, 58] ++ intChars e.type ++
  [44, 34, 100, 105, 115, 116, 97, 110, 99, 101, 34, 58] ++ intChars e.dist ++
  [125]

/-- The sprite loop: the separating comma is emitted whenever the raw loop
index `i` is positive (line 249) — not the number of entities already
emitted. -/
def spritesEmit (vw vh cf vz : Int) : List VisSprite → Nat → List Nat
  | [], _ => []
  | v :: rest, i =>
    match spriteVals vw vh cf vz v with
    | none => spritesEmit vw vh cf vz rest (i + 1)
    | some e =>
      (if i > 0 then [44] else []) ++ entBytes e ++ spritesEmit vw vh cf vz rest (i + 1)

/-- ASCII of the weapon object: `{"x":..,"y":..,"visible":true}` when the
weapon state is present, else `{"visible":false}`. -/
def weaponBytes (vw vh : Int) : Option PspSlot → List Nat
  | some w =>
    [123, 34, 120, 34, 58] ++ intChars (weaponVals vw vh w).1 ++
    [44, 34, 121, 34, 58] ++ intChars (weaponVals vw vh w).2 ++
    [44, 34, 118, 105, 115, 105, 98, 108, 101, 34, 58, 116, 114, 117, 101, 125]
  | none =>
    [123, 34, 118, 105, 115, 105, 98, 108, 101, 34, 58, 102, 97, 108, 115, 101, 125]

/-- ASCII of the document head: `{"frame":<n>,"walls":[`. -/
def frameHdrBytes (fc : Int) : List Nat :=
  [123, 34, 102, 114, 97, 109, 101, 34, 58] ++ intChars fc ++
  [44, 34, 119, 97, 108, 108, 115, 34, 58, 91]

/-- ASCII of `],"entities":[`. -/
def entitiesSepBytes : List Nat :=
  [93, 44, 34, 101, 110, 116, 105, 116, 105, 101, 115, 34, 58, 91]

/-- ASCII of `],"weapon":`. -/
def weaponSepBytes : List Nat :=
  [93, 44, 34, 119, 101, 97, 112, 111, 110, 34, 58]

/-- The whole serialized frame document, as the byte sequence the snprintf
calls of `extract_vectors_to_json` produce in order. -/
def extract_vectors_to_json (f : Frame) : List Nat :=
  frameHdrBytes f.frameCount ++
  wallsEmit f.viewwidth f.viewheight f.centeryfrac f.viewz
    (f.drawsegs.take MAXDRAWSEGS) 0 ++
  entitiesSepBytes ++
  spritesEmit f.viewwidth f.viewheight f.centeryfrac f.viewz
    (f.vissprites.take MAXVISSPRITES) 0 ++
  weaponSepBytes ++
  weaponBytes f.viewwidth f.viewheight f.weapon ++
  [125]

/-- `*out_len = offset`: `offset` accumulates the snprintf would-be lengths,
so it always equals the total length of all chunks, truncated or not. -/
def extract_out_len (f : Frame) : Nat := (extract_vectors_to_json f).length

/-! ## A JSON syntax checker

Lexer plus pushdown automaton for the JSON fragment the frame schema uses:
objects, arrays, escape-free strings, integer numerals, `true`/`false`/`null`.
It is used to decide syntactic validity of concrete serializer outputs. -/

inductive JTok where
  | lbrace | rbrace | lbrack | rbrack | comma | colon | jstr | jnum | jlit
  deriving DecidableEq

/-- Scan a string body up to its closing quote (no escapes). -/
def strScan : List Nat → Option (List Nat)
  | [] => none
  | 34 :: rest => some rest
  | 92 :: _ => none
  | _ :: rest => strScan rest

def isDigitB (b : Nat) : Bool := decide (48 ≤ b ∧ b ≤ 57)

def jsonLexAux : Nat → List Nat → Option (List JTok)
  | 0, _ => none
  | _ + 1, [] => some []
  | fuel + 1, b :: rest =>
    if b = 32 ∨ b = 9 ∨ b = 10 ∨ b = 13 then jsonLexAux fuel rest
    else if b = 123 then (jsonLexAux fuel rest).map (JTok.lbrace :: ·)
    else if b = 125 then (jsonLexAux fuel rest).map (JTok.rbrace :: ·)
    else if b = 91 then (jsonLexAux fuel rest).map (JTok.lbrack :: ·)
    else if b = 93 then (jsonLexAux fuel rest).map (JTok.rbrack :: ·)
    else if b = 44 then (jsonLexAux fuel rest).map (JTok.comma :: ·)
    else if b = 58 then (jsonLexAux fuel rest).map (JTok.colon :: ·)
    else if b = 34 then
      match strScan rest with
      | none => none
      | some rest' => (jsonLexAux fuel rest').map (JTok.jstr :: ·)
    else if b = 116 then
      match rest with
      | 114 :: 117 :: 101 :: rest' => (jsonLexAux fuel rest').map (JTok.jlit :: ·)
      | _ => none
    else if b = 102 then
      match rest with
      | 97 :: 108 :: 115 :: 101 :: rest' => (jsonLexAux fuel rest').map (JTok.jlit :: ·)
      | _ => none
    else if b = 110 then
      match rest with
      | 117 :: 108 :: 108 :: rest' => (jsonLexAux fuel rest').map (JTok.jlit :: ·)
      | _ => none
    else if b = 45 then
      match rest with
      | d :: rest' =>
        if isDigitB d then (jsonLexAux fuel (rest'.dropWhile isDigitB)).map (JTok.jnum :: ·)
        else none
      | [] => none
    else if isDigitB b then (jsonLexAux fuel (rest.dropWhile isDigitB)).map (JTok.jnum :: ·)
    else none

def jsonLex (s : List Nat) : Option (List JTok) := jsonLexAux (s.length + 1) s

inductive JCtx where
  | arr | obj
  deriving DecidableEq

/-- Parser modes: `vOpen` expects a value or a closing bracket (start of an
array); `v` expects a value; `afterV` expects a separator or a close; `kOpen`
expects an object key or a closing brace; `k` expects a key; `col` expects a
colon. -/
inductive JMode where
  | vOpen | v | afterV | kOpen | k | col
  deriving DecidableEq

def jsonRun : List JTok → JMode → List JCtx → Bool
  | [], .afterV, [] => true
  | [], _, _ => false
  | t :: ts, .vOpen, st =>
    match t with
    | .rbrack => match st with | .arr :: st' => jsonRun ts .afterV st' | _ => false
    | .lbrace => jsonRun ts .kOpen (.obj :: st)
    | .lbrack => jsonRun ts .vOpen (.arr :: st)
    | .jstr => jsonRun ts .afterV st
    | .jnum => jsonRun ts .afterV st
    | .jlit => jsonRun ts .afterV st
    | _ => false
  | t :: ts, .v, st =>
    match t with
    | .lbrace => jsonRun ts .kOpen (.obj :: st)
    | .lbrack => jsonRun ts .vOpen (.arr :: st)
    | .jstr => jsonRun ts .afterV st
    | .jnum => jsonRun ts .afterV st
    | .jlit => jsonRun ts .afterV st
    | _ => false
  | t :: ts, .afterV, st =>
    match t with
    | .comma =>
      (match st with
       | .arr :: _ => jsonRun ts .v st
       | .obj :: _ => jsonRun ts .k st
       | [] => false)
    | .rbrack => (match st with | .arr :: st' => jsonRun ts .afterV st' | _ => false)
    | .rbrace => (match st with | .obj :: st' => jsonRun ts .afterV st' | _ => false)
    | _ => false
  | t :: ts, .kOpen, st =>
    match t with
    | .rbrace => (match st with | .obj :: st' => jsonRun ts .afterV st' | _ => false)
    | .jstr => jsonRun ts .col st
    | _ => false
  | t :: ts, .k, st =>
    match t with
    | .jstr => jsonRun ts .col st
    | _ => false
  | t :: ts, .col, st =>
    match t with
    | .colon => jsonRun ts .v st
    | _ => false

/-- Syntactic validity of a byte sequence as a JSON document. -/
def jsonOk (s : List Nat) : Bool :=
  match jsonLex s with
  | some ts => jsonRun ts .v []
  | none => false

/-! ## Claim C1: element separators of the entities array -/

/-- A frame whose first vissprite is rejected by the x-bounds filter
(`x1 = -1`) and whose second is accepted. -/
def frameLeadRejected : Frame :=
  { frameCount := 0
    drawsegs := []
    vissprites :=
      [ { x1 := -1, x2 := 0, scale := 1, gzt := 0, gz := 0, mobjtype := 0 },
        { x1 := 0, x2 := 0, scale := 1, gzt := 0, gz := 0, mobjtype := 0 } ]
    viewwidth := 320
    viewheight := 200
    centeryfrac := 0
    viewz := 0
    weapon := none }

/-- The same frame with the sprites in the opposite order: the accepted
vissprite comes first, so no leading separator is emitted. -/
def frameLeadAccepted : Frame :=
  { frameLeadRejected with
    vissprites :=
      [ { x1 := 0, x2 := 0, scale := 1, gzt := 0, gz := 0, mobjtype := 0 },
        { x1 := -1, x2 := 0, scale := 1, gzt := 0, gz := 0, mobjtype := 0 } ] }

set_option maxRecDepth 4000 in
/-- Claim C1 (code bug): the sprite loop decides the `entities` separator on
the raw loop index `i` instead of the number of elements already emitted, so
a frame whose leading vissprite is rejected by the x-bounds filter serializes
with a comma directly after `"entities":[` and the document is not valid
JSON; with the accepted sprite first the very same data serializes to valid
JSON. -/
theorem entities_separator_violation :
    jsonOk (extract_vectors_to_json frameLeadRejected) = false ∧
    (spritesEmit 320 200 0 0 (frameLeadRejected.vissprites.take MAXVISSPRITES) 0).head? =
      some 44 ∧
    jsonOk (extract_vectors_to_json frameLeadAccepted) = true := by
  refine ⟨by decide, by decide, by decide⟩

/-! ## Claim C2: the serialized frame always fits the 262144-byte buffer -/

theorem ediv65536_I32 {a : Int} (h : I32 a) : I32 (a / 65536) := by
  obtain ⟨h1, h2⟩ := h
  constructor
  · calc (-(2 ^ 31) : Int) ≤ -(2 ^ 31) / 65536 := by norm_num
      _ ≤ a / 65536 := Int.ediv_le_ediv (by norm_num) h1
  · calc a / 65536 ≤ (2 ^ 31 - 1) / 65536 := Int.ediv_le_ediv (by norm_num) (by omega)
      _ < 2 ^ 31 := by norm_num

theorem clampAxis_I32 {bound y : Int} (hy : I32 y) : I32 (clampAxis bound y) := by
  have hn : I32 (clampNeg y) := by
    unfold clampNeg
    split
    · exact ⟨by norm_num, by norm_num⟩
    · exact hy
  unfold clampAxis clampMax
  split
  · exact toInt32_mem _
  · exact hn

theorem projY_I32 (cf vz vh wz s : Int) : I32 (projY cf vz vh wz s) :=
  clampAxis_I32 (ediv65536_I32 (toInt32_mem _))

theorem depthBucket_I32 (s : Int) : I32 (depthBucket s) := by
  obtain ⟨h1, h2⟩ := depthBucket_range s
  exact ⟨by omega, by omega⟩

theorem tdiv2_I32 {a : Int} (h : I32 a) : I32 (a.tdiv 2) := by
  obtain ⟨h1, h2⟩ := h
  by_cases ha : 0 ≤ a
  · have e := Int.tdiv_eq_ediv ha (by norm_num : (0:Int) ≤ 2)
    have hb1 : 0 ≤ a / 2 := Int.ediv_nonneg ha (by norm_num)
    have hb2 : a / 2 ≤ a := Int.ediv_le_self 2 ha
    exact ⟨by omega, by omega⟩
  · push_neg at ha
    have hna : 0 ≤ -a := by omega
    have e : a.tdiv 2 = -((-a).tdiv 2) := by
      rw [Int.neg_tdiv]; omega
    have e2 := Int.tdiv_eq_ediv hna (by norm_num : (0:Int) ≤ 2)
    have hb1 : 0 ≤ (-a) / 2 := Int.ediv_nonneg hna (by norm_num)
    have hb2 : (-a) / 2 ≤ -a := Int.ediv_le_self 2 hna
    constructor <;> omega

theorem entHeight_I32 (yt yb : Int) : I32 (entHeight yt yb) := by
  unfold entHeight
  split
  · exact ⟨by norm_num, by norm_num⟩
  · exact toInt32_mem _

/-- Range hypotheses on the raw sampler inputs: every field the serializer
prints verbatim is a C `int`, i.e. lies in the signed 32-bit range. -/
def Frame32 (f : Frame) : Prop :=
  I32 f.frameCount ∧ I32 f.viewwidth ∧
  (∀ d ∈ f.drawsegs, I32 d.silhouette) ∧
  (∀ v ∈ f.vissprites, I32 v.mobjtype)

instance (f : Frame) : Decidable (Frame32 f) := by unfold Frame32; infer_instance

theorem wallVals_I32 {vw vh cf vz : Int} {d : DrawSeg} {w : WallRec}
    (h : wallVals vw vh cf vz d = some w) (hvw : I32 vw) (hsil : I32 d.silhouette) :
    I32 w.x1 ∧ I32 w.y1Top ∧ I32 w.y1Bot ∧ I32 w.x2 ∧ I32 w.y2Top ∧
    I32 w.y2Bot ∧ I32 w.dist ∧ I32 w.sil := by
  unfold wallVals at h
  split at h
  · exact Option.noConfusion h
  · rename_i hflt
    push_neg at hflt
    obtain ⟨hx1n, hx2n, hx1vw, hx2vw, _⟩ := hflt
    split at h
    · exact Option.noConfusion h
    · split at h
      · exact Option.noConfusion h
      · injection h with h
        subst h
        obtain ⟨hvw1, hvw2⟩ := hvw
        dsimp only
        refine ⟨⟨by omega, by omega⟩, projY_I32 .., projY_I32 ..,
          ⟨by omega, by omega⟩, projY_I32 .., projY_I32 ..,
          depthBucket_I32 _, hsil⟩

theorem spriteVals_I32 {vw vh cf vz : Int} {v : VisSprite} {e : EntRec}
    (h : spriteVals vw vh cf vz v = some e) (ht : I32 v.mobjtype) :
    I32 e.x ∧ I32 e.yTop ∧ I32 e.yBot ∧ I32 e.height ∧ I32 e.type ∧ I32 e.dist := by
  unfold spriteVals at h
  split at h
  · exact Option.noConfusion h
  · injection h with h
    subst h
    exact ⟨tdiv2_I32 (toInt32_mem _), projY_I32 .., projY_I32 ..,
      entHeight_I32 .., ht, depthBucket_I32 _⟩

theorem wallBytes_len {w : WallRec}
    (h : I32 w.x1 ∧ I32 w.y1Top ∧ I32 w.y1Bot ∧ I32 w.x2 ∧ I32 w.y2Top ∧
      I32 w.y2Bot ∧ I32 w.dist ∧ I32 w.sil) :
    (wallBytes w).length ≤ 97 := by
  obtain ⟨h1, h2, h3, h4, h5, h6, h7, h8⟩ := h
  have := intChars_len h1
  have := intChars_len h2
  have := intChars_len h3
  have := intChars_len h4
  have := intChars_len h5
  have := intChars_len h6
  have := intChars_len h7
  have := intChars_len h8
  simp only [wallBytes, List.length_cons, List.length_append, List.length_nil]
  omega

theorem entBytes_len {e : EntRec}
    (h : I32 e.x ∧ I32 e.yTop ∧ I32 e.yBot ∧ I32 e.height ∧ I32 e.type ∧ I32 e.dist) :
    (entBytes e).length ≤ 123 := by
  obtain ⟨h1, h2, h3, h4, h5, h6⟩ := h
  have := intChars_len h1
  have := intChars_len h2
  have := intChars_len h3
  have := intChars_len h4
  have := intChars_len h5
  have := intChars_len h6
  simp only [entBytes, List.length_cons, List.length_append, List.length_nil]
  omega

theorem wallsEmit_len {vw vh cf vz : Int} (hvw : I32 vw) :
    ∀ (l : List DrawSeg) (cnt : Nat), (∀ d ∈ l, I32 d.silhouette) →
      (wallsEmit vw vh cf vz l cnt).length ≤ 98 * l.length := by
  intro l
  induction l with
  | nil => intro cnt _; simp [wallsEmit]
  | cons d rest ih =>
    intro cnt hall
    unfold wallsEmit
    cases hw : wallVals vw vh cf vz d with
    | none =>
      have := ih cnt (fun x hx => hall x (List.mem_cons_of_mem d hx))
      simp only [List.length_cons]
      omega
    | some w =>
      have hb := wallBytes_len (wallVals_I32 hw hvw (hall d (List.mem_cons_self d rest)))
      have := ih (cnt + 1) (fun x hx => hall x (List.mem_cons_of_mem d hx))
      simp only [List.length_append, List.length_cons]
      have hsep : (if cnt > 0 then [44] else ([] : List Nat)).length ≤ 1 := by
        split <;> simp
      omega

theorem spritesEmit_len {vw vh cf vz : Int} :
    ∀ (l : List VisSprite) (i : Nat), (∀ v ∈ l, I32 v.mobjtype) →
      (spritesEmit vw vh cf vz l i).length ≤ 124 * l.length := by
  intro l
  induction l with
  | nil => intro i _; simp [spritesEmit]
  | cons v rest ih =>
    intro i hall
    unfold spritesEmit
    cases hv : spriteVals vw vh cf vz v with
    | none =>
      have := ih (i + 1) (fun x hx => hall x (List.mem_cons_of_mem v hx))
      simp only [List.length_cons]
      omega
    | some e =>
      have hb := entBytes_len (spriteVals_I32 hv (hall v (List.mem_cons_self v rest)))
      have := ih (i + 1) (fun x hx => hall x (List.mem_cons_of_mem v hx))
      simp only [List.length_append, List.length_cons]
      have hsep : (if i > 0 then [44] else ([] : List Nat)).length ≤ 1 := by
        split <;> simp
      omega

theorem weaponBytes_len (vw vh : Int) (w : Option PspSlot) :
    (weaponBytes vw vh w).length ≤ 48 := by
  cases w with
  | none => simp [weaponBytes]
  | some ws =>
    have h1 := intChars_len
      (@clampAxis_I32 vw _ (toInt32_mem (ws.sx / 65536 + vw.tdiv 2)))
    have h2 := intChars_len
      (@clampAxis_I32 vh _ (toInt32_mem (toInt32 (ws.sy / 65536 + vh) - 32)))
    simp only [weaponBytes, weaponVals, List.length_cons, List.length_append,
      List.length_nil]
    omega

theorem frameHdrBytes_len {fc : Int} (h : I32 fc) :
    (frameHdrBytes fc).length ≤ 30 := by
  have := intChars_len h
  simp only [frameHdrBytes, List.length_cons, List.length_append, List.length_nil]
  omega

/-- Claim C2: the serialized document always fits the 262144-byte scratch
buffer with room for the terminating NUL, for every frame whose raw inputs
are 32-bit ints.  Hence `*out_len` never exceeds the capacity, no snprintf
call ever truncates (each write's offset is a prefix of the total), and the
overflow-truncation branch of the claim is unreachable. -/
theorem serializer_within_buffer (f : Frame) (h : Frame32 f) :
    extract_out_len f + 1 ≤ 262144 ∧
    (∀ pre suf : List Nat, extract_vectors_to_json f = pre ++ suf →
      pre.length + 1 ≤ 262144) := by
  obtain ⟨hfc, hvw, hsil, htyp⟩ := h
  have hw : (wallsEmit f.viewwidth f.viewheight f.centeryfrac f.viewz
      (f.drawsegs.take MAXDRAWSEGS) 0).length ≤ 98 * 256 := by
    have h1 := @wallsEmit_len f.viewwidth f.viewheight f.centeryfrac f.viewz
      hvw (f.drawsegs.take MAXDRAWSEGS) 0
      (fun d hd => hsil d (List.mem_of_mem_take hd))
    have h2 : (f.drawsegs.take MAXDRAWSEGS).length ≤ 256 := by
      simp [MAXDRAWSEGS, List.length_take]
    omega
  have hs : (spritesEmit f.viewwidth f.viewheight f.centeryfrac f.viewz
      (f.vissprites.take MAXVISSPRITES) 0).length ≤ 124 * 128 := by
    have h1 := @spritesEmit_len f.viewwidth f.viewheight f.centeryfrac f.viewz
      (f.vissprites.take MAXVISSPRITES) 0
      (fun v hv => htyp v (List.mem_of_mem_take hv))
    have h2 : (f.vissprites.take MAXVISSPRITES).length ≤ 128 := by
      simp [MAXVISSPRITES, List.length_take]
    omega
  have hh := frameHdrBytes_len hfc
  have hwp := weaponBytes_len f.viewwidth f.viewheight f.weapon
  have htot : extract_out_len f + 1 ≤ 262144 := by
    unfold extract_out_len extract_vectors_to_json
    simp only [List.length_append, List.length_cons, List.length_nil,
      entitiesSepBytes, weaponSepBytes]
    omega
  refine ⟨htot, fun pre suf hps => ?_⟩
  have : (extract_vectors_to_json f).length = pre.length + suf.length := by
    rw [hps, List.length_append]
  unfold extract_out_len at htot
  omega

/-- A minimal frame used to instantiate the buffer bound. -/
def emptyFrame : Frame :=
  { frameCount := 0, drawsegs := [], vissprites := [], viewwidth := 320,
    viewheight := 200, centeryfrac := 0, viewz := 0, weapon := none }

/-- Witness for C2 at a concrete frame. -/
theorem serializer_within_buffer_witness :
    Frame32 emptyFrame ∧ extract_out_len emptyFrame + 1 ≤ 262144 :=
  ⟨by decide, (serializer_within_buffer emptyFrame (by decide)).1⟩

/-! ## Claim C8: invariants of the emitted records -/

theorem clampAxis_eq {bound y : Int} (hb1 : 1 ≤ bound) (hb2 : bound < 2 ^ 31) :
    clampAxis bound y =
      if (if y < 0 then 0 else y) ≥ bound then bound - 1
      else (if y < 0 then 0 else y) := by
  unfold clampAxis clampMax clampNeg
  rw [toInt32_eq_self ⟨by omega, by omega⟩]

theorem clampAxis_bounds {bound y : Int} (hb1 : 1 ≤ bound) (hb2 : bound < 2 ^ 31) :
    0 ≤ clampAxis bound y ∧ clampAxis bound y < bound := by
  rw [clampAxis_eq hb1 hb2]
  split_ifs <;> omega

theorem clampAxis_mono {bound yA yB : Int} (hb1 : 1 ≤ bound) (hb2 : bound < 2 ^ 31)
    (h : yA ≤ yB) : clampAxis bound yA ≤ clampAxis bound yB := by
  rw [clampAxis_eq hb1 hb2, clampAxis_eq hb1 hb2]
  split_ifs <;> omega

theorem projY_bounds (cf vz vh wz s : Int) (hvh1 : 1 ≤ vh) (hvh2 : vh < 2 ^ 31) :
    0 ≤ projY cf vz vh wz s ∧ projY cf vz vh wz s < vh :=
  clampAxis_bounds hvh1 hvh2

theorem fixScale_pos (s : Int) : 0 < fixScale s := by
  unfold fixScale; split <;> omega

/-- Monotonicity of the projected screen Y in the world height, in the
overflow-free regime: a higher world Z projects to a smaller (or equal)
screen Y. -/
theorem projY_mono {cf vz vh wzA wzB s : Int}
    (hs : 0 < s) (hA : I32 (wzA - vz)) (hB : I32 (wzB - vz))
    (hpA : |(wzA - vz) * s| ≤ 2 ^ 46) (hpB : |(wzB - vz) * s| ≤ 2 ^ 46)
    (hcf : |cf| < 2 ^ 30) (hvh1 : 1 ≤ vh) (hvh2 : vh < 2 ^ 31)
    (h : wzA ≤ wzB) : projY cf vz vh wzB s ≤ projY cf vz vh wzA s := by
  obtain ⟨hpA1, hpA2⟩ := abs_le.mp hpA
  obtain ⟨hpB1, hpB2⟩ := abs_le.mp hpB
  obtain ⟨hcf1, hcf2⟩ := abs_lt.mp hcf
  have hdA1 : -(2 ^ 30 : Int) ≤ (wzA - vz) * s / 65536 := by
    calc (-(2 : Int) ^ 30) = -(2 : Int) ^ 46 / 65536 := by norm_num
      _ ≤ _ := Int.ediv_le_ediv (by norm_num) hpA1
  have hdA2 : (wzA - vz) * s / 65536 ≤ 2 ^ 30 := by
    calc _ ≤ (2 : Int) ^ 46 / 65536 := Int.ediv_le_ediv (by norm_num) hpA2
      _ = 2 ^ 30 := by norm_num
  have hdB1 : -(2 ^ 30 : Int) ≤ (wzB - vz) * s / 65536 := by
    calc (-(2 : Int) ^ 30) = -(2 : Int) ^ 46 / 65536 := by norm_num
      _ ≤ _ := Int.ediv_le_ediv (by norm_num) hpB1
  have hdB2 : (wzB - vz) * s / 65536 ≤ 2 ^ 30 := by
    calc _ ≤ (2 : Int) ^ 46 / 65536 := Int.ediv_le_ediv (by norm_num) hpB2
      _ = 2 ^ 30 := by norm_num
  have hfm : (wzA - vz) * s / 65536 ≤ (wzB - vz) * s / 65536 :=
    Int.ediv_le_ediv (by norm_num)
      (Int.mul_le_mul_of_nonneg_right (by omega) (le_of_lt hs))
  unfold projY FixedMul
  rw [toInt32_eq_self hA, toInt32_eq_self hB,
    @toInt32_eq_self ((wzA - vz) * s / 65536) ⟨by omega, by omega⟩,
    @toInt32_eq_self ((wzB - vz) * s / 65536) ⟨by omega, by omega⟩,
    @toInt32_eq_self (cf - (wzA - vz) * s / 65536) ⟨by omega, by omega⟩,
    @toInt32_eq_self (cf - (wzB - vz) * s / 65536) ⟨by omega, by omega⟩]
  exact clampAxis_mono hvh1 hvh2 (Int.ediv_le_ediv (by norm_num) (by omega))

/-- Per-sprite validity of the renderer snapshot (the renderer's own
invariants: the sprite top is at or above its bottom, and the fixed-point
quantities are small enough that the 32-bit projection does not wrap). -/
def SpriteOK (vz : Int) (v : VisSprite) : Prop :=
  v.gz ≤ v.gzt ∧ I32 (v.gzt - vz) ∧ I32 (v.gz - vz) ∧
  |(v.gzt - vz) * fixScale v.scale| ≤ 2 ^ 46 ∧
  |(v.gz - vz) * fixScale v.scale| ≤ 2 ^ 46

instance (vz : Int) (v : VisSprite) : Decidable (SpriteOK vz v) := by
  unfold SpriteOK; infer_instance

/-- A valid frame: positive view dimensions in the renderer's realistic
range, a screen-centre fraction far below overflow, and renderer-invariant
vissprites. -/
def ValidFrame (f : Frame) : Prop :=
  1 ≤ f.viewwidth ∧ f.viewwidth ≤ 2 ^ 30 ∧
  1 ≤ f.viewheight ∧ f.viewheight < 2 ^ 31 ∧
  |f.centeryfrac| < 2 ^ 30 ∧
  ∀ v ∈ f.vissprites.take MAXVISSPRITES, SpriteOK f.viewz v

instance (f : Frame) : Decidable (ValidFrame f) := by
  unfold ValidFrame; infer_instance

theorem wallVals_invariants {vw vh cf vz : Int} {d : DrawSeg} {w : WallRec}
    (h : wallVals vw vh cf vz d = some w) (hvh1 : 1 ≤ vh) (hvh2 : vh < 2 ^ 31) :
    0 ≤ w.x1 ∧ w.x1 ≤ w.x2 ∧ w.x2 < vw ∧
    0 ≤ w.y1Top ∧ w.y1Top < vh ∧ 0 ≤ w.y1Bot ∧ w.y1Bot < vh ∧
    0 ≤ w.y2Top ∧ w.y2Top < vh ∧ 0 ≤ w.y2Bot ∧ w.y2Bot < vh ∧
    0 ≤ w.dist ∧ w.dist ≤ 999 := by
  unfold wallVals at h
  split at h
  · exact Option.noConfusion h
  · rename_i hflt
    push_neg at hflt
    obtain ⟨hx1n, hx2n, hx1vw, hx2vw, hord⟩ := hflt
    split at h
    · exact Option.noConfusion h
    · split at h
      · exact Option.noConfusion h
      · injection h with h
        subst h
        dsimp only
        refine ⟨hx1n, hord, hx2vw, ?_, ?_, ?_, ?_, ?_, ?_, ?_, ?_, ?_, ?_⟩
        · exact (projY_bounds _ _ _ _ _ hvh1 hvh2).1
        · exact (projY_bounds _ _ _ _ _ hvh1 hvh2).2
        · exact (projY_bounds _ _ _ _ _ hvh1 hvh2).1
        · exact (projY_bounds _ _ _ _ _ hvh1 hvh2).2
        · exact (projY_bounds _ _ _ _ _ hvh1 hvh2).1
        · exact (projY_bounds _ _ _ _ _ hvh1 hvh2).2
        · exact (projY_bounds _ _ _ _ _ hvh1 hvh2).1
        · exact (projY_bounds _ _ _ _ _ hvh1 hvh2).2
        · exact (depthBucket_range _).1
        · exact (depthBucket_range _).2

theorem spriteVals_invariants {vw vh cf vz : Int} {v : VisSprite} {e : EntRec}
    (h : spriteVals vw vh cf vz v = some e)
    (hvw1 : 1 ≤ vw) (hvw2 : vw ≤ 2 ^ 30) (hvh1 : 1 ≤ vh) (hvh2 : vh < 2 ^ 31)
    (hcf : |cf| < 2 ^ 30) (hok : SpriteOK vz v) :
    0 ≤ e.x ∧ e.x < vw ∧ 0 ≤ e.yTop ∧ e.yTop ≤ e.yBot ∧ e.yBot < vh ∧
    e.height = max 5 (e.yBot - e.yTop) ∧ 5 ≤ e.height ∧
    0 ≤ e.dist ∧ e.dist ≤ 999 := by
  obtain ⟨hgz, hIt, hIb, hpt, hpb⟩ := hok
  unfold spriteVals at h
  split at h
  · exact Option.noConfusion h
  · rename_i hflt
    push_neg at hflt
    obtain ⟨hx1n, hx2n, hx1vw, hx2vw⟩ := hflt
    injection h with h
    subst h
    dsimp only
    have hxI : I32 (v.x1 + v.x2) := ⟨by omega, by omega⟩
    have hxsum : (0 : Int) ≤ v.x1 + v.x2 := by omega
    have hx : (toInt32 (v.x1 + v.x2)).tdiv 2 = (v.x1 + v.x2) / 2 := by
      rw [toInt32_eq_self hxI, Int.tdiv_eq_ediv hxsum (by norm_num)]
    have hxlow : 0 ≤ (v.x1 + v.x2) / 2 := Int.ediv_nonneg hxsum (by norm_num)
    have hxhigh : (v.x1 + v.x2) / 2 < vw := by
      have h1 : (v.x1 + v.x2) / 2 ≤ (2 * (vw - 1)) / 2 :=
        Int.ediv_le_ediv (by norm_num) (by omega)
      have h2 : (2 : Int) * (vw - 1) / 2 = vw - 1 :=
        Int.mul_ediv_cancel_left (vw - 1) (by norm_num)
      omega
    have hyT := projY_bounds cf vz vh v.gzt (fixScale v.scale) hvh1 hvh2
    have hyB := projY_bounds cf vz vh v.gz (fixScale v.scale) hvh1 hvh2
    have hmono := projY_mono (fixScale_pos v.scale) hIb hIt hpb hpt hcf hvh1 hvh2 hgz
    have hh : entHeight (projY cf vz vh v.gzt (fixScale v.scale))
        (projY cf vz vh v.gz (fixScale v.scale)) =
        max 5 (projY cf vz vh v.gz (fixScale v.scale) -
          projY cf vz vh v.gzt (fixScale v.scale)) := by
      unfold entHeight
      rw [toInt32_eq_self ⟨by omega, by omega⟩, Int.max_def]
      split_ifs <;> omega
    obtain ⟨hd1, hd2⟩ := depthBucket_range (fixScale v.scale)
    rw [hx]
    refine ⟨hxlow, hxhigh, hyT.1, hmono, hyB.2, hh, ?_, hd1, hd2⟩
    rw [hh, Int.max_def]
    split_ifs <;> omega

/-- Claim C8: for every valid frame, every emitted wall tuple satisfies
`0 ≤ x1 ≤ x2 < viewwidth` with all four projected Y values in
`[0, viewheight − 1]` and distance in `[0, 999]`, and every emitted entity
satisfies `0 ≤ x < viewwidth`, `0 ≤ y_top ≤ y_bottom < viewheight`,
`height = max(5, y_bottom − y_top) ≥ 5`, and distance in `[0, 999]`. -/
theorem sampler_output_invariants (f : Frame) (h : ValidFrame f) :
    (∀ w ∈ emittedWalls f,
      0 ≤ w.x1 ∧ w.x1 ≤ w.x2 ∧ w.x2 < f.viewwidth ∧
      0 ≤ w.y1Top ∧ w.y1Top < f.viewheight ∧ 0 ≤ w.y1Bot ∧ w.y1Bot < f.viewheight ∧
      0 ≤ w.y2Top ∧ w.y2Top < f.viewheight ∧ 0 ≤ w.y2Bot ∧ w.y2Bot < f.viewheight ∧
      0 ≤ w.dist ∧ w.dist ≤ 999) ∧
    (∀ e ∈ emittedEnts f,
      0 ≤ e.x ∧ e.x < f.viewwidth ∧ 0 ≤ e.yTop ∧ e.yTop ≤ e.yBot ∧
      e.yBot < f.viewheight ∧ e.height = max 5 (e.yBot - e.yTop) ∧ 5 ≤ e.height ∧
      0 ≤ e.dist ∧ e.dist ≤ 999) := by
  obtain ⟨hvw1, hvw2, hvh1, hvh2, hcf, hsp⟩ := h
  constructor
  · intro w hw
    obtain ⟨d, _, hd⟩ := List.mem_filterMap.mp hw
    exact wallVals_invariants hd hvh1 hvh2
  · intro e he
    obtain ⟨v, hv, hve⟩ := List.mem_filterMap.mp he
    exact spriteVals_invariants hve hvw1 hvw2 hvh1 hvh2 hcf (hsp v hv)

/-- A concrete valid frame with one accepted drawseg and one accepted
vissprite (the §8 frame-emission scenario of the spec). -/
def validFrameW : Frame :=
  { frameCount := 1
    drawsegs :=
      [ { x1 := 10, x2 := 30,
          curline := some { frontsector := some { ceilingheight := 8388608, floorheight := 0 } },
          scale1 := 65536, scale2 := 65536, silhouette := 1 } ]
    vissprites :=
      [ { x1 := 100, x2 := 120, scale := 65536, gzt := 4194304, gz := 0, mobjtype := 9 } ]
    viewwidth := 320
    viewheight := 200
    centeryfrac := 6553600
    viewz := 2097152
    weapon := none }

/-- The single wall the concrete frame emits. -/
def wallW : WallRec :=
  match emittedWalls validFrameW with
  | w :: _ => w
  | [] => ⟨0, 0, 0, 0, 0, 0, 0, 0⟩

/-- The single entity the concrete frame emits. -/
def entW : EntRec :=
  match emittedEnts validFrameW with
  | e :: _ => e
  | [] => ⟨0, 0, 0, 0, 0, 0⟩

/-- Witness for C8 at the concrete frame. -/
theorem sampler_output_invariants_witness :
    ValidFrame validFrameW ∧
    (0 ≤ wallW.x1 ∧ wallW.x1 ≤ wallW.x2 ∧ wallW.x2 < validFrameW.viewwidth ∧
      0 ≤ wallW.y1Top ∧ wallW.y1Top < validFrameW.viewheight ∧
      0 ≤ wallW.y1Bot ∧ wallW.y1Bot < validFrameW.viewheight ∧
      0 ≤ wallW.y2Top ∧ wallW.y2Top < validFrameW.viewheight ∧
      0 ≤ wallW.y2Bot ∧ wallW.y2Bot < validFrameW.viewheight ∧
      0 ≤ wallW.dist ∧ wallW.dist ≤ 999) ∧
    (0 ≤ entW.x ∧ entW.x < validFrameW.viewwidth ∧
      0 ≤ entW.yTop ∧ entW.yTop ≤ entW.yBot ∧ entW.yBot < validFrameW.viewheight ∧
      entW.height = max 5 (entW.yBot - entW.yTop) ∧ 5 ≤ entW.height ∧
      0 ≤ entW.dist ∧ entW.dist ≤ 999) :=
  ⟨by decide,
    (sampler_output_invariants validFrameW (by decide)).1 wallW (by decide),
    (sampler_output_invariants validFrameW (by decide)).2 entW (by decide)⟩

/-! ## Framed transport: short-I/O loops (doom_socket.c lines 28–72)

A kernel schedule drives the partial reads and writes. -/

/-- Result of one kernel `read`/`write` call: `ok k` is a return of `k`
bytes (`ok 0` is the zero return — end-of-stream for `read`), `errRetryable`
a negative return with a retryable errno (e.g. EINTR), `errFatal` a negative
return with a non-retryable errno.  The C code inspects only the sign. -/
inductive SysRes where
  | ok (k : Nat)
  | errRetryable
  | errFatal
  deriving DecidableEq

def isOkPos : SysRes → Bool
  | .ok (_ + 1) => true
  | _ => false

/-- `send_exactly`: loop writing until every byte of `data` is accepted; any
non-positive kernel return aborts with an error (`none`).  On success the
first component is the byte sequence placed on the wire. -/
def send_exactly : List Nat → List SysRes → Option (List Nat × List SysRes)
  | [], sch => some ([], sch)
  | _ :: _, [] => none
  | data@(_ :: _), r :: sch =>
    match r with
    | .ok 0 => none
    | .ok (k + 1) =>
      match send_exactly (data.drop (min (k + 1) data.length)) sch with
      | none => none
      | some (w, sch') => some (data.take (min (k + 1) data.length) ++ w, sch')
    | _ => none

/-- `recv_exactly`: loop reading until `need` bytes have arrived; a zero
return (closed peer) or a negative return aborts.  The kernel hands over at
most the requested count and at most what the stream still holds. -/
def recv_exactly : Nat → List Nat → List SysRes → Option (List Nat × List Nat × List SysRes)
  | 0, s, sch => some ([], s, sch)
  | _ + 1, _, [] => none
  | need@(_ + 1), s, r :: sch =>
    match r with
    | .ok k =>
      if min (min k need) s.length = 0 then none
      else
        match recv_exactly (need - min (min k need) s.length)
            (s.drop (min (min k need) s.length)) sch with
        | none => none
        | some (d, s', sch') => some (s.take (min (min k need) s.length) ++ d, s', sch')
    | _ => none

theorem send_exactly_ok :
    ∀ (sch : List SysRes) (data : List Nat), sch.all isOkPos = true →
      data.length ≤ sch.length →
      ∃ sch', send_exactly data sch = some (data, sch') := by
  intro sch
  induction sch with
  | nil =>
    intro data _ hlen
    cases data with
    | nil => exact ⟨[], rfl⟩
    | cons b bs => simp at hlen
  | cons r rest ih =>
    intro data hall hlen
    simp only [List.all_cons, Bool.and_eq_true] at hall
    cases data with
    | nil => exact ⟨r :: rest, rfl⟩
    | cons b bs =>
      cases r with
      | errRetryable => simp [isOkPos] at hall
      | errFatal => simp [isOkPos] at hall
      | ok k =>
        cases k with
        | zero => simp [isOkPos] at hall
        | succ k =>
          have hk1 : 1 ≤ min (k + 1) (b :: bs).length := by
            rw [Nat.le_min]
            exact ⟨by omega, by simp⟩
          obtain ⟨sch', hs⟩ := ih ((b :: bs).drop (min (k + 1) (b :: bs).length))
            hall.2 (by simp [List.length_drop, List.length_cons] at *; omega)
          refine ⟨sch', ?_⟩
          unfold send_exactly
          dsimp only
          rw [hs]
          dsimp only
          rw [List.take_append_drop]

theorem recv_exactly_ok :
    ∀ (sch : List SysRes) (need : Nat) (s : List Nat), sch.all isOkPos = true →
      need ≤ sch.length → need ≤ s.length →
      ∃ sch', recv_exactly need s sch = some (s.take need, s.drop need, sch') := by
  intro sch
  induction sch with
  | nil =>
    intro need s _ hlen _
    have : need = 0 := by simpa using hlen
    subst this
    exact ⟨[], by simp [recv_exactly]⟩
  | cons r rest ih =>
    intro need s hall hlen hs
    simp only [List.all_cons, Bool.and_eq_true] at hall
    cases need with
    | zero => exact ⟨r :: rest, by simp [recv_exactly]⟩
    | succ m =>
      cases r with
      | errRetryable => simp [isOkPos] at hall
      | errFatal => simp [isOkPos] at hall
      | ok k =>
        cases k with
        | zero => simp [isOkPos] at hall
        | succ k =>
          have hk1 : 1 ≤ min (min (k + 1) (m + 1)) s.length := by
            simp only [le_min_iff]
            omega
          obtain ⟨sch', hrec⟩ := ih (m + 1 - min (min (k + 1) (m + 1)) s.length)
            (s.drop (min (min (k + 1) (m + 1)) s.length)) hall.2
            (by simp only [List.length_cons] at hlen; omega)
            (by simp only [List.length_drop]; omega)
          refine ⟨sch', ?_⟩
          unfold recv_exactly
          dsimp only
          rw [if_neg (by omega), hrec]
          dsimp only
          have hsum : min (min (k + 1) (m + 1)) s.length +
              (m + 1 - min (min (k + 1) (m + 1)) s.length) = m + 1 := by omega
          have h1 : s.take (min (min (k + 1) (m + 1)) s.length) ++
              (s.drop (min (min (k + 1) (m + 1)) s.length)).take
                (m + 1 - min (min (k + 1) (m + 1)) s.length) = s.take (m + 1) := by
            rw [← List.take_add, hsum]
          have h2 : (s.drop (min (min (k + 1) (m + 1)) s.length)).drop
              (m + 1 - min (min (k + 1) (m + 1)) s.length) = s.drop (m + 1) := by
            rw [List.drop_drop, hsum]
          rw [h1, h2]

/-! ## Message framing (header encode/decode)

The header fields are native-byte-order `uint32_t`; little-endian is used
here — the claims are independent of the choice because sender and receiver
live on the same host and use the same order. -/

/-- The 4 bytes of a `uint32_t` value (value taken mod 2^32, as the C cast
`(uint32_t)len` does). -/
def encodeU32 (n : Nat) : List Nat :=
  [n % 2 ^ 32 % 256, n % 2 ^ 32 / 256 % 256,
   n % 2 ^ 32 / 65536 % 256, n % 2 ^ 32 / 16777216 % 256]

/-- Reassemble a `uint32_t` from 4 bytes. -/
def decodeU32 : List Nat → Nat
  | [b0, b1, b2, b3] => b0 + 256 * b1 + 65536 * b2 + 16777216 * b3
  | _ => 0

theorem decodeU32_encodeU32 {n : Nat} (h : n < 2 ^ 32) :
    decodeU32 (encodeU32 n) = n := by
  simp only [encodeU32, decodeU32]
  omega

theorem encodeU32_length (n : Nat) : (encodeU32 n).length = 4 := rfl

/-- `doom_socket_send_message` (and `doom_socket_send_frame`, which is the
`tag = 0x01` instance): build the 8-byte header `[msg_type, (uint32_t)len]`,
send it with one `send_exactly` call, then send the payload with another.
Each call runs against its own kernel schedule; the wire carries the header
bytes followed by the payload bytes. -/
def doom_socket_send_message (tag : Nat) (payload : List Nat)
    (w1 w2 : List SysRes) : Option (List Nat) :=
  match send_exactly (encodeU32 tag ++ encodeU32 payload.length) w1 with
  | none => none
  | some (h, _) =>
    match send_exactly payload w2 with
    | none => none
    | some (p, _) => some (h ++ p)

/-- The spec's `try_recv` view of the receive side: read the two 4-byte
header words to completion with the short-read loop, then exactly
`payload_len` bytes — the exact read sequence `doom_socket_recv_key`
performs, with the tag dispatch abstracted so that the raw `(tag, payload)`
is returned. -/
def tryRecvSpec (s : List Nat) (r1 r2 r3 : List SysRes) :
    Option (Nat × List Nat × List Nat) :=
  match recv_exactly 4 s r1 with
  | none => none
  | some (h1, s1, _) =>
    match recv_exactly 4 s1 r2 with
    | none => none
    | some (h2, s2, _) =>
      match recv_exactly (decodeU32 h2) s2 r3 with
      | none => none
      | some (p, s3, _) => some (decodeU32 h1, p, s3)

/-- Claim C6 (amended): for every tag and payload of length below 2^32, a
send followed by the peer's receive over the same local stream yields
exactly the same `(tag, payload)` — the 8-byte header and the payload are
delivered completely and in order under arbitrary short-I/O kernel
schedules, because both sides loop; but send reports an error whenever a
write returns zero or any negative value, retryable or not. -/
theorem send_recv_roundtrip (tag : Nat) (payload : List Nat)
    (w1 w2 r1 r2 r3 : List SysRes)
    (htag : tag < 2 ^ 32) (hlen : payload.length < 2 ^ 32)
    (hw1 : w1.all isOkPos = true) (hw2 : w2.all isOkPos = true)
    (hr1 : r1.all isOkPos = true) (hr2 : r2.all isOkPos = true)
    (hr3 : r3.all isOkPos = true)
    (hw1l : 8 ≤ w1.length) (hw2l : payload.length ≤ w2.length)
    (hr1l : 4 ≤ r1.length) (hr2l : 4 ≤ r2.length)
    (hr3l : payload.length ≤ r3.length) :
    ∃ wire, doom_socket_send_message tag payload w1 w2 = some wire ∧
      tryRecvSpec wire r1 r2 r3 = some (tag, payload, []) := by
  have hhdr : (encodeU32 tag ++ encodeU32 payload.length).length = 8 := by
    simp [encodeU32_length]
  obtain ⟨w1', hs1⟩ := send_exactly_ok w1 (encodeU32 tag ++ encodeU32 payload.length)
    hw1 (by omega)
  obtain ⟨w2', hs2⟩ := send_exactly_ok w2 payload hw2 hw2l
  refine ⟨(encodeU32 tag ++ encodeU32 payload.length) ++ payload, ?_, ?_⟩
  · unfold doom_socket_send_message
    rw [hs1, hs2]
  · have e1 : ((encodeU32 tag ++ encodeU32 payload.length) ++ payload) =
        encodeU32 tag ++ (encodeU32 payload.length ++ payload) := by
      rw [List.append_assoc]
    obtain ⟨r1', hrc1⟩ := recv_exactly_ok r1 4
      ((encodeU32 tag ++ encodeU32 payload.length) ++ payload) hr1 hr1l
      (by simp only [List.length_append, encodeU32_length]; omega)
    have ht1 : ((encodeU32 tag ++ encodeU32 payload.length) ++ payload).take 4 =
        encodeU32 tag := by
      rw [e1, show (4 : Nat) = (encodeU32 tag).length from rfl, List.take_left]
    have hd1 : ((encodeU32 tag ++ encodeU32 payload.length) ++ payload).drop 4 =
        encodeU32 payload.length ++ payload := by
      rw [e1, show (4 : Nat) = (encodeU32 tag).length from rfl, List.drop_left]
    obtain ⟨r2', hrc2⟩ := recv_exactly_ok r2 4 (encodeU32 payload.length ++ payload)
      hr2 hr2l (by simp [encodeU32_length])
    have ht2 : (encodeU32 payload.length ++ payload).take 4 =
        encodeU32 payload.length := by
      rw [show (4 : Nat) = (encodeU32 payload.length).length from rfl, List.take_left]
    have hd2 : (encodeU32 payload.length ++ payload).drop 4 = payload := by
      rw [show (4 : Nat) = (encodeU32 payload.length).length from rfl, List.drop_left]
    obtain ⟨r3', hrc3⟩ := recv_exactly_ok r3 payload.length payload hr3 hr3l le_rfl
    unfold tryRecvSpec
    rw [hrc1, ht1, hd1]
    dsimp only
    rw [hrc2, ht2, hd2]
    dsimp only
    rw [decodeU32_encodeU32 hlen, hrc3, List.take_length, List.drop_length]
    dsimp only
    rw [decodeU32_encodeU32 htag]

/-- Claim C6 counterexample: a kernel whose single `write` call returns a
negative retryable error (e.g. EINTR) — the kernel returned neither zero nor
a non-retryable error, yet `send_exactly` reports an error instead of
retrying, so "send reports an error only if the kernel returns zero or a
non-retryable error" is false. -/
theorem send_exactly_fails_on_retryable :
    send_exactly [7] [SysRes.errRetryable] = none ∧
    SysRes.errRetryable ≠ SysRes.ok 0 ∧
    SysRes.errRetryable ≠ SysRes.errFatal :=
  ⟨rfl, by decide, by decide⟩

/-- Witness for C6 at a concrete message and concrete short-write/short-read
schedules. -/
theorem send_recv_roundtrip_witness :
    ((2 : Nat) < 2 ^ 32 ∧ ([97, 98] : List Nat).length < 2 ^ 32 ∧
      (List.replicate 8 (SysRes.ok 1)).all isOkPos = true) ∧
    (∃ wire, doom_socket_send_message 2 [97, 98]
        (List.replicate 8 (SysRes.ok 1)) (List.replicate 2 (SysRes.ok 1)) = some wire ∧
      tryRecvSpec wire (List.replicate 4 (SysRes.ok 1)) (List.replicate 4 (SysRes.ok 1))
        (List.replicate 2 (SysRes.ok 1)) = some (2, [97, 98], [])) :=
  ⟨⟨by decide, by decide, by decide⟩,
    send_recv_roundtrip 2 [97, 98] (List.replicate 8 (SysRes.ok 1))
      (List.replicate 2 (SysRes.ok 1)) (List.replicate 4 (SysRes.ok 1))
      (List.replicate 4 (SysRes.ok 1)) (List.replicate 2 (SysRes.ok 1))
      (by decide) (by decide) (by decide) (by decide) (by decide) (by decide)
      (by decide) (by decide) (by decide) (by decide) (by decide) (by decide)⟩

/-! ## Receive path and connection management (doom_socket.c lines 74–307)

`doom_socket_recv_key` and `doom_socket_connect` call `recv_exactly` on the
pending inbound bytes; against a concrete stream the loop either finds the
needed bytes (and consumes them) or runs into end-of-stream (the peer
closed) and fails.  `readBytes` captures exactly that semantics; the
`readBytes_is_recv_exactly` lemma ties it to the scheduled loop. -/

def readBytes (n : Nat) (s : List Nat) : Option (List Nat × List Nat) :=
  if n ≤ s.length then some (s.take n, s.drop n) else none

theorem readBytes_is_recv_exactly (n : Nat) (s : List Nat) (h : n ≤ s.length) :
    readBytes n s = some (s.take n, s.drop n) ∧
    ∃ sch', recv_exactly n s (List.replicate n (SysRes.ok 1)) =
      some (s.take n, s.drop n, sch') := by
  refine ⟨by simp [readBytes, h], ?_⟩
  refine recv_exactly_ok (List.replicate n (SysRes.ok 1)) n s ?_ (by simp) h
  rw [List.all_eq_true]
  intro r hr
  rw [List.eq_of_mem_replicate hr]
  rfl

/-- Read one `uint32_t` header word (4 bytes) from the stream. -/
def readU32 (s : List Nat) : Option (Nat × List Nat) :=
  match readBytes 4 s with
  | none => none
  | some (b, s') => some (decodeU32 b, s')

theorem readU32_encode {n : Nat} (r : List Nat) (h : n < 2 ^ 32) :
    readU32 (encodeU32 n ++ r) = some (n, r) := by
  unfold readU32 readBytes
  rw [if_pos (by simp only [List.length_append, encodeU32_length]; omega)]
  rw [show (4 : Nat) = (encodeU32 n).length from rfl, List.take_left, List.drop_left]
  dsimp only
  rw [decodeU32_encodeU32 h]

/-- Message tags of doom_socket.h. -/
def MSG_FRAME_DATA : Nat := 1
def MSG_KEY_EVENT : Nat := 2
def MSG_INIT_COMPLETE : Nat := 3
def MSG_SHUTDOWN : Nat := 4
def MSG_SCREENSHOT : Nat := 5

/-! ### Key-event payload parsing (lines 231–255) -/

/-- C `strstr`: the first suffix of `hay` that starts with `pat`. -/
def strstrL (hay pat : List Nat) : Option (List Nat) :=
  if pat.isPrefixOf hay then some hay
  else
    match hay with
    | [] => none
    | _ :: t => strstrL t pat

def containsSub (hay pat : List Nat) : Bool := (strstrL hay pat).isSome

/-- C `isspace` bytes (space, tab, LF, VT, FF, CR). -/
def isSpaceB (b : Nat) : Bool :=
  decide (b = 32 ∨ b = 9 ∨ b = 10 ∨ b = 11 ∨ b = 12 ∨ b = 13)

def digitsVal (l : List Nat) : Int :=
  l.foldl (fun acc d => acc * 10 + ((d : Int) - 48)) 0

/-- C `atoi`: skip whitespace, optional sign, then leading decimal digits
(zero when there are none). -/
def atoiL (s : List Nat) : Int :=
  match s.dropWhile isSpaceB with
  | 45 :: rest => -(digitsVal (rest.takeWhile isDigitB))
  | 43 :: rest => digitsVal (rest.takeWhile isDigitB)
  | s1 => digitsVal (s1.takeWhile isDigitB)

/-- ASCII bytes of `"pressed":`. -/
def patPressed : List Nat := [34, 112, 114, 101, 115, 115, 101, 100, 34, 58]

/-- ASCII bytes of `"key":` (6 bytes — the code skips them with `+= 6`). -/
def patKey : List Nat := [34, 107, 101, 121, 34, 58]

/-- ASCII bytes of `true`. -/
def patTrue : List Nat := [116, 114, 117, 101]

/-- The key-event payload parse: applied to the C string in `json_buf`,
i.e. the payload truncated at its first NUL byte.  `pressed` is 1 iff `true`
occurs anywhere after `"pressed":`; the key value is `atoi` of what follows
`"key":` after skipping spaces and tabs. Missing fields default to 0. -/
def parseKeyPayload (payload : List Nat) : Int × Int :=
  (match strstrL (payload.takeWhile (fun b => !decide (b = 0))) patPressed with
   | some rest => if containsSub rest patTrue then 1 else 0
   | none => 0,
   match strstrL (payload.takeWhile (fun b => !decide (b = 0))) patKey with
   | some rest => atoiL ((rest.drop 6).dropWhile (fun b => b = 32 || b = 9))
   | none => 0)

/-! ### doom_socket_recv_key (lines 170–262) -/

structure RecvKeyOut where
  ret : Int
  pressedKey : Option (Int × Int)
  stream : List Nat
  fd : Int
  deriving DecidableEq

/-- `doom_socket_recv_key`: `fd` is the global socket fd, `ready` the result
of the zero-timeout `select`, `mallocOk` whether the drain-buffer allocation
succeeds, `s` the pending inbound bytes.  `pressedKey` holds the
`*pressed`/`*key` outputs when the code writes them; the key output is the C
cast `(unsigned char)key_val`, i.e. the parsed value mod 256.  When a
`recv_exactly` hits end-of-stream the stream is consumed to its end. -/
def doom_socket_recv_key (fd : Int) (ready : Bool) (mallocOk : Bool)
    (s : List Nat) : RecvKeyOut :=
  if fd < 0 then ⟨0, none, s, fd⟩
  else if !ready then ⟨0, none, s, fd⟩
  else
    match readU32 s with
    | none => ⟨-1, none, [], fd⟩
    | some (msgType, s1) =>
      match readU32 s1 with
      | none => ⟨-1, none, [], fd⟩
      | some (payloadLen, s2) =>
        if msgType = MSG_SHUTDOWN then ⟨-1, none, s2, fd⟩
        else if msgType ≠ MSG_KEY_EVENT then
          if 0 < payloadLen ∧ payloadLen < 65536 ∧ mallocOk = true then
            match readBytes payloadLen s2 with
            | none => ⟨0, none, [], fd⟩
            | some (_, s3) => ⟨0, none, s3, fd⟩
          else ⟨0, none, s2, fd⟩
        else
          if 256 ≤ payloadLen then ⟨-1, none, s2, fd⟩
          else
            match readBytes payloadLen s2 with
            | none => ⟨-1, none, [], fd⟩
            | some (payload, s3) =>
              ⟨1, some ((parseKeyPayload payload).1, (parseKeyPayload payload).2 % 256),
                s3, fd⟩

/-- `doom_socket_is_connected` (lines 278–280). -/
def doom_socket_is_connected (fd : Int) : Int := if fd ≥ 0 then 1 else 0

/-- `doom_socket_close` (lines 264–276): when connected, best-effort write of
a SHUTDOWN header, then release the fd.  Returns the new fd and the header
bytes written. -/
def doom_socket_close (fd : Int) : Int × List Nat :=
  if fd ≥ 0 then (-1, encodeU32 MSG_SHUTDOWN ++ encodeU32 0) else (fd, [])

/-- `doom_socket_connect` (lines 74–141): `sockOk`/`connOk` model the
`socket`/`connect` syscalls, `mallocOk` the discard-buffer allocation, `s`
the inbound bytes; 3 stands for the fd the kernel hands out.  Returns
`(ret, fd, remaining stream)`.  The return value of the `recv_exactly` that
discards the INIT payload is ignored by the code (line 134), as is an
allocation failure. -/
def doom_socket_connect (sockOk connOk mallocOk : Bool) (s : List Nat) :
    Int × Int × List Nat :=
  if !sockOk then (-1, -1, s)
  else if !connOk then (-1, -1, s)
  else
    match readU32 s with
    | none => (-1, -1, [])
    | some (msgType, s1) =>
      match readU32 s1 with
      | none => (-1, -1, [])
      | some (payloadLen, s2) =>
        if msgType ≠ MSG_INIT_COMPLETE then (-1, -1, s2)
        else if 0 < payloadLen ∧ mallocOk = true then
          match readBytes payloadLen s2 with
          | none => (0, 3, [])
          | some (_, s3) => (0, 3, s3)
        else (0, 3, s2)

/-! ## Claim C3: SHUTDOWN / fatal errors do not disconnect the handle -/

/-- Claim C3 counterexample: a connected handle (fd 5) receives a peer
SHUTDOWN message; `doom_socket_recv_key` reports it with −1 but leaves the
fd untouched, and `doom_socket_is_connected` still returns 1, not 0 — the
handle does not transition to Disconnected. -/
theorem recv_key_shutdown_keeps_connected :
    (doom_socket_recv_key 5 true true (encodeU32 4 ++ encodeU32 0)).ret = -1 ∧
    (doom_socket_recv_key 5 true true (encodeU32 4 ++ encodeU32 0)).fd = 5 ∧
    doom_socket_is_connected
      (doom_socket_recv_key 5 true true (encodeU32 4 ++ encodeU32 0)).fd = 1 := by
  decide

/-- Claim C3 (amended): `doom_socket_recv_key` never modifies the handle —
after it reports a peer SHUTDOWN (or any fatal receive error) with −1 the fd
is unchanged and `doom_socket_is_connected` still returns 1; the handle
reaches Disconnected only through `doom_socket_close` (or a failed
`doom_socket_connect`). -/
theorem recv_key_error_leaves_handle (fd : Int) (ready mallocOk : Bool)
    (s rest : List Nat) (hfd : 0 ≤ fd) :
    (doom_socket_recv_key fd ready mallocOk s).fd = fd ∧
    (s = encodeU32 4 ++ (encodeU32 0 ++ rest) → ready = true →
      (doom_socket_recv_key fd ready mallocOk s).ret = -1 ∧
      doom_socket_is_connected (doom_socket_recv_key fd ready mallocOk s).fd = 1) ∧
    doom_socket_is_connected (doom_socket_close fd).1 = 0 := by
  refine ⟨?_, ?_, ?_⟩
  · unfold doom_socket_recv_key
    repeat' split
    all_goals rfl
  · intro hs hready
    subst hs
    subst hready
    unfold doom_socket_recv_key
    rw [if_neg (by omega), if_neg (by simp)]
    rw [readU32_encode _ (by norm_num)]
    dsimp only
    rw [readU32_encode _ (by norm_num)]
    dsimp only
    rw [if_pos (show (4 : Nat) = MSG_SHUTDOWN from rfl)]
    refine ⟨rfl, ?_⟩
    unfold doom_socket_is_connected
    dsimp only
    rw [if_pos (by omega)]
  · unfold doom_socket_close
    rw [if_pos (by omega)]
    unfold doom_socket_is_connected
    rw [if_neg (by norm_num)]

/-- Witness for C3 (amended) at fd 5 and a concrete SHUTDOWN stream. -/
theorem recv_key_error_leaves_handle_witness :
    (0 ≤ (5 : Int)) ∧
    ((doom_socket_recv_key 5 true true (encodeU32 4 ++ (encodeU32 0 ++ []))).ret = -1 ∧
      doom_socket_is_connected
        (doom_socket_recv_key 5 true true (encodeU32 4 ++ (encodeU32 0 ++ []))).fd = 1) :=
  ⟨by decide,
    (recv_key_error_leaves_handle 5 true true (encodeU32 4 ++ (encodeU32 0 ++ [])) []
      (by decide)).2.1 rfl rfl⟩

/-! ## Claim C4: unknown tags and the 65536 payload threshold -/

/-- Claim C4 counterexample: an unknown tag (6) with payload length 65536 —
`doom_socket_recv_key` returns 0 (the no-message result), not an error, and
the payload bytes stay in the stream undrained. -/
theorem recv_key_large_unknown_not_fatal :
    (doom_socket_recv_key 3 true true
      (encodeU32 6 ++ (encodeU32 65536 ++ [9, 9, 9]))).ret = 0 ∧
    (doom_socket_recv_key 3 true true
      (encodeU32 6 ++ (encodeU32 65536 ++ [9, 9, 9]))).stream = [9, 9, 9] := by
  decide

/-- Claim C4 (amended): for a header whose tag is neither KEY_EVENT nor
SHUTDOWN the call always returns 0 (never an error): a payload with
`0 < len < 65536` is drained from the stream (the allocation succeeding),
while a payload of length ≥ 65536 is not drained — the call still returns 0
and the payload bytes remain in the stream. -/
theorem recv_key_unknown_tag (fd : Int) (t len : Nat) (payload rest : List Nat)
    (hfd : 0 ≤ fd) (ht : t < 2 ^ 32) (ht2 : t ≠ 2) (ht4 : t ≠ 4)
    (hlen : len < 2 ^ 32) (hplen : payload.length = len) :
    (doom_socket_recv_key fd true true
      (encodeU32 t ++ (encodeU32 len ++ (payload ++ rest)))).ret = 0 ∧
    (0 < len → len < 65536 →
      (doom_socket_recv_key fd true true
        (encodeU32 t ++ (encodeU32 len ++ (payload ++ rest)))).stream = rest) ∧
    (65536 ≤ len →
      (doom_socket_recv_key fd true true
        (encodeU32 t ++ (encodeU32 len ++ (payload ++ rest)))).stream =
        payload ++ rest) := by
  have hread : readBytes len (payload ++ rest) = some (payload, rest) := by
    unfold readBytes
    rw [if_pos (by simp [hplen])]
    rw [← hplen, List.take_left, List.drop_left]
  unfold doom_socket_recv_key
  rw [if_neg (by omega), if_neg (by simp)]
  rw [readU32_encode _ ht]
  dsimp only
  rw [readU32_encode _ hlen]
  dsimp only
  rw [if_neg (by simp [MSG_SHUTDOWN, ht4]), if_pos (by simp [MSG_KEY_EVENT, ht2])]
  refine ⟨?_, ?_, ?_⟩
  · split
    · rw [hread]
    · rfl
  · intro h1 h2
    rw [if_pos ⟨h1, h2, rfl⟩, hread]
  · intro h1
    rw [if_neg (by omega)]

/-- Witness for C4 (amended) at tag 6 with a 3-byte and a large payload. -/
theorem recv_key_unknown_tag_witness :
    (0 ≤ (3 : Int) ∧ (6 : Nat) < 2 ^ 32 ∧ (6 : Nat) ≠ 2 ∧ (6 : Nat) ≠ 4 ∧
      (3 : Nat) < 2 ^ 32 ∧ ([1, 2, 3] : List Nat).length = 3) ∧
    (doom_socket_recv_key 3 true true
      (encodeU32 6 ++ (encodeU32 3 ++ ([1, 2, 3] ++ [7])))).ret = 0 ∧
    (doom_socket_recv_key 3 true true
      (encodeU32 6 ++ (encodeU32 3 ++ ([1, 2, 3] ++ [7])))).stream = [7] :=
  ⟨⟨by decide, by decide, by decide, by decide, by decide, by decide⟩,
    (recv_key_unknown_tag 3 6 3 [1, 2, 3] [7] (by decide) (by decide) (by decide)
      (by decide) (by decide) (by decide)).1,
    (recv_key_unknown_tag 3 6 3 [1, 2, 3] [7] (by decide) (by decide) (by decide)
      (by decide) (by decide) (by decide)).2.1 (by decide) (by decide)⟩

/-! ## Claim C10: accepted KEY_EVENT keys are the parsed value mod 256 -/

/-- ASCII bytes of the payload `{"pressed": true, "key": 97}`. -/
def key97msg : List Nat :=
  [123, 34, 112, 114, 101, 115, 115, 101, 100, 34, 58, 32, 116, 114, 117, 101,
   44, 32, 34, 107, 101, 121, 34, 58, 32, 57, 55, 125]

/-- ASCII bytes of the payload `{"pressed": true, "key": 353}`. -/
def key353msg : List Nat :=
  [123, 34, 112, 114, 101, 115, 115, 101, 100, 34, 58, 32, 116, 114, 117, 101,
   44, 32, 34, 107, 101, 121, 34, 58, 32, 51, 53, 51, 125]

/-- Claim C10: every KEY_EVENT payload accepted by `doom_socket_recv_key`
delivers the key code `(unsigned char)atoi(...)`, i.e. the parsed decimal
value reduced mod 256 — out-of-range values (including negatives) are
wrapped, never rejected; concretely, the payloads with keys 97 and 353
produce the identical output `(pressed = 1, key = 97)`. -/
theorem recv_key_delivers_key_mod_256 (fd : Int) (payload rest : List Nat)
    (hfd : 0 ≤ fd) (hlen : payload.length < 256) :
    ((doom_socket_recv_key fd true true
        (encodeU32 2 ++ (encodeU32 payload.length ++ (payload ++ rest)))).ret = 1 ∧
      (doom_socket_recv_key fd true true
        (encodeU32 2 ++ (encodeU32 payload.length ++ (payload ++ rest)))).pressedKey =
        some ((parseKeyPayload payload).1, (parseKeyPayload payload).2 % 256)) ∧
    (doom_socket_recv_key 7 true true
        (encodeU32 2 ++ (encodeU32 28 ++ key97msg))).pressedKey = some (1, 97) ∧
    (doom_socket_recv_key 7 true true
        (encodeU32 2 ++ (encodeU32 29 ++ key353msg))).pressedKey = some (1, 97) := by
  refine ⟨?_, by decide, by decide⟩
  have hread : readBytes payload.length (payload ++ rest) = some (payload, rest) := by
    unfold readBytes
    rw [if_pos (by simp), List.take_left, List.drop_left]
  unfold doom_socket_recv_key
  rw [if_neg (by omega), if_neg (by simp)]
  rw [readU32_encode _ (by norm_num)]
  dsimp only
  rw [readU32_encode _ (by omega)]
  dsimp only
  rw [if_neg (by simp [MSG_SHUTDOWN]), if_neg (by simp [MSG_KEY_EVENT]),
    if_neg (by omega), hread]
  exact ⟨rfl, rfl⟩

/-- Witness for C10 at the concrete key-353 payload. -/
theorem recv_key_delivers_key_mod_256_witness :
    (0 ≤ (7 : Int) ∧ key353msg.length < 256) ∧
    ((doom_socket_recv_key 7 true true
        (encodeU32 2 ++ (encodeU32 key353msg.length ++ (key353msg ++ [])))).ret = 1 ∧
      (doom_socket_recv_key 7 true true
        (encodeU32 2 ++ (encodeU32 key353msg.length ++ (key353msg ++ [])))).pressedKey =
        some ((parseKeyPayload key353msg).1, (parseKeyPayload key353msg).2 % 256)) :=
  ⟨⟨by decide, by decide⟩,
    (recv_key_delivers_key_mod_256 7 key353msg [] (by decide) (by decide)).1⟩

/-! ## Claim C9: connect handshake and error handling -/

/-- Claim C9 counterexample: the INIT_COMPLETE header announces a 4-byte
payload but the peer closes after 2 bytes; the discard `recv_exactly`'s
failure is ignored (line 134) and `doom_socket_connect` still returns
success with a Connected handle, although the peer closed mid-handshake. -/
theorem connect_ignores_discard_failure :
    doom_socket_connect true true true
      (encodeU32 3 ++ (encodeU32 4 ++ [1, 2])) = (0, 3, []) ∧
    doom_socket_is_connected
      (doom_socket_connect true true true
        (encodeU32 3 ++ (encodeU32 4 ++ [1, 2]))).2.1 = 1 := by
  decide

/-- Claim C9 (amended): `doom_socket_connect` reads exactly one 8-byte
header and requires its tag to be INIT_COMPLETE.  A socket or connect
syscall failure, a short header read (closed peer), or a tag mismatch makes
it return −1 with the socket released and the handle Disconnected.  With a
correct header it discards the announced payload only on a best-effort
basis: a failure while discarding (peer close mid-payload, allocation
failure) is ignored and connect still returns success with a Connected
handle. -/
theorem connect_handshake (sockOk connOk mallocOk : Bool) (t len : Nat)
    (body s : List Nat) (ht : t < 2 ^ 32) (hlen : len < 2 ^ 32) :
    (sockOk = false → doom_socket_connect sockOk connOk mallocOk s = (-1, -1, s)) ∧
    (connOk = false → doom_socket_connect sockOk connOk mallocOk s =
      (if sockOk then (-1, -1, s) else (-1, -1, s))) ∧
    (s.length < 8 → (doom_socket_connect true true mallocOk s).1 = -1 ∧
      (doom_socket_connect true true mallocOk s).2.1 = -1 ∧
      doom_socket_is_connected (doom_socket_connect true true mallocOk s).2.1 = 0) ∧
    (t ≠ 3 → doom_socket_connect true true mallocOk
        (encodeU32 t ++ (encodeU32 len ++ body)) = (-1, -1, body) ∧
      doom_socket_is_connected
        (doom_socket_connect true true mallocOk
          (encodeU32 t ++ (encodeU32 len ++ body))).2.1 = 0) ∧
    (t = 3 → (doom_socket_connect true true mallocOk
        (encodeU32 t ++ (encodeU32 len ++ body))).1 = 0 ∧
      (doom_socket_connect true true mallocOk
        (encodeU32 t ++ (encodeU32 len ++ body))).2.1 = 3 ∧
      doom_socket_is_connected
        (doom_socket_connect true true mallocOk
          (encodeU32 t ++ (encodeU32 len ++ body))).2.1 = 1) := by
  refine ⟨?_, ?_, ?_, ?_, ?_⟩
  · intro h
    subst h
    rfl
  · intro h
    subst h
    cases sockOk <;> rfl
  · intro hshort
    unfold doom_socket_connect
    rw [if_neg (by simp), if_neg (by simp)]
    unfold readU32 readBytes
    by_cases h4 : 4 ≤ s.length
    · rw [if_pos h4]
      dsimp only
      rw [if_neg (by simp only [List.length_drop]; omega)]
      exact ⟨rfl, rfl, rfl⟩
    · rw [if_neg h4]
      exact ⟨rfl, rfl, rfl⟩
  · intro hne
    unfold doom_socket_connect
    rw [if_neg (by simp), if_neg (by simp)]
    rw [readU32_encode _ ht]
    dsimp only
    rw [readU32_encode _ hlen]
    dsimp only
    rw [if_pos (by simp [MSG_INIT_COMPLETE, hne])]
    exact ⟨rfl, rfl⟩
  · intro heq
    subst heq
    unfold doom_socket_connect
    rw [if_neg (by simp), if_neg (by simp)]
    rw [readU32_encode _ ht]
    dsimp only
    rw [readU32_encode _ hlen]
    dsimp only
    rw [if_neg (by simp [MSG_INIT_COMPLETE])]
    split
    · split
      · exact ⟨rfl, rfl, rfl⟩
      · exact ⟨rfl, rfl, rfl⟩
    · exact ⟨rfl, rfl, rfl⟩

/-- Witness for C9 (amended): the §8 handshake-rejection scenario — the
peer's first message carries tag 0x02. -/
theorem connect_handshake_witness :
    ((2 : Nat) < 2 ^ 32 ∧ (0 : Nat) < 2 ^ 32 ∧ (2 : Nat) ≠ 3) ∧
    (doom_socket_connect true true true (encodeU32 2 ++ (encodeU32 0 ++ [])) =
        (-1, -1, []) ∧
      doom_socket_is_connected
        (doom_socket_connect true true true
          (encodeU32 2 ++ (encodeU32 0 ++ []))).2.1 = 0) :=
  ⟨⟨by decide, by decide, by decide⟩,
    (connect_handshake true true true 2 0 [] (encodeU32 2 ++ (encodeU32 0 ++ []))
      (by decide) (by decide)).2.2.2.1 (by decide)⟩

/-! ## Claim C5: the frame hook and the transport (DG_DrawFrame, lines 322–398)

The tick is modelled by its externally visible behaviour: the serialized
frame sent over the socket, the SDL event drain into the key queue, the
frame counter, and the screenshot branch.  `SockOp` is the trace of socket
operations the tick performs; `recvKey` would be a `doom_socket_recv_key`
call. -/

inductive SDLEvent where
  | quit
  | keyDown (code : Nat)
  | keyUp (code : Nat)
  deriving DecidableEq

/-- The 16-slot circular key queue (`s_KeyQueue`, lines 52–55). -/
structure KeyQ where
  data : List Nat
  wr : Nat
  rd : Nat
  deriving DecidableEq

/-- `addKeyToQueue` (lines 96–102): store `(pressed << 8) | key` at the
write index and advance it mod 16; `conv` is `convertToDoomKey`, whose SDL
key-symbol cases live outside `src/`, so it is a parameter — its result is
an `unsigned char`, hence the mod 256. -/
def addKeyToQueue (conv : Nat → Nat) (q : KeyQ) (pressed : Nat) (code : Nat) : KeyQ :=
  { data := q.data.set q.wr (pressed * 256 + conv code % 256)
    wr := (q.wr + 1) % 16
    rd := q.rd }

/-- `handleKeyInput` (lines 104–118): drain the SDL event queue; a QUIT
event calls `exit(1)` (`none`). -/
def handleKeyInput (conv : Nat → Nat) (q : KeyQ) : List SDLEvent → Option KeyQ
  | [] => some q
  | .quit :: _ => none
  | .keyDown c :: es => handleKeyInput conv (addKeyToQueue conv q 1 c) es
  | .keyUp c :: es => handleKeyInput conv (addKeyToQueue conv q 0 c) es

/-- Socket operations a tick can perform. -/
inductive SockOp where
  | sendFrame (payload : List Nat)
  | sendMsg (tag : Nat)
  | recvKey
  deriving DecidableEq

structure DGState where
  frameCount : Int
  keyQ : KeyQ
  lastScreenshotTime : Nat
  deriving DecidableEq

structure DGInput where
  rframe : Frame
  sdlEvents : List SDLEvent
  now : Nat
  sendOk : Bool
  surfaceOk : Bool
  saveOk : Bool
  inbound : List Nat

/-- `DG_DrawFrame`: serialize and send the frame (exit(1) on send failure),
render via SDL, drain the SDL event queue into the key queue (exit(1) on
QUIT), bump the frame counter, and run the 3-second screenshot branch,
which may send a SCREENSHOT message.  The timestamps are `uint32_t`, so the
elapsed-time subtraction wraps mod 2^32.  Result `none` models `exit(1)`.
The function contains no call to `doom_socket_recv_key`; the pending
inbound bytes are returned unchanged. -/
def DG_DrawFrame (conv : Nat → Nat) (st : DGState) (inp : DGInput) :
    Option DGState × List SockOp × List Nat :=
  if !inp.sendOk then
    (none,
     [SockOp.sendFrame (extract_vectors_to_json
        { inp.rframe with frameCount := st.frameCount })],
     inp.inbound)
  else
    match handleKeyInput conv st.keyQ inp.sdlEvents with
    | none =>
      (none,
       [SockOp.sendFrame (extract_vectors_to_json
          { inp.rframe with frameCount := st.frameCount })],
       inp.inbound)
    | some q' =>
      if st.lastScreenshotTime = 0 then
        (some { frameCount := toInt32 (st.frameCount + 1), keyQ := q',
                lastScreenshotTime := inp.now },
         [SockOp.sendFrame (extract_vectors_to_json
            { inp.rframe with frameCount := st.frameCount })],
         inp.inbound)
      else if 3000 ≤ (inp.now + 2 ^ 32 - st.lastScreenshotTime % 2 ^ 32) % 2 ^ 32 then
        (some { frameCount := toInt32 (st.frameCount + 1), keyQ := q',
                lastScreenshotTime := inp.now },
         SockOp.sendFrame (extract_vectors_to_json
            { inp.rframe with frameCount := st.frameCount }) ::
           (if inp.surfaceOk && inp.saveOk then [SockOp.sendMsg 5] else []),
         inp.inbound)
      else
        (some { frameCount := toInt32 (st.frameCount + 1), keyQ := q',
                lastScreenshotTime := st.lastScreenshotTime },
         [SockOp.sendFrame (extract_vectors_to_json
            { inp.rframe with frameCount := st.frameCount })],
         inp.inbound)

/-- A pending inbound KEY_EVENT message (tag 2, the key-97 payload). -/
def pendingKeyEventMsg : List Nat := encodeU32 2 ++ (encodeU32 28 ++ key97msg)

/-- The concrete tick state and input for the counterexample: the key queue
is empty, no SDL events arrive, and a KEY_EVENT from the peer is pending on
the socket. -/
def dgSt0 : DGState :=
  { frameCount := 0, keyQ := { data := List.replicate 16 0, wr := 0, rd := 0 },
    lastScreenshotTime := 0 }

def dgInp0 : DGInput :=
  { rframe := { frameCount := 0, drawsegs := [], vissprites := [], viewwidth := 320,
                viewheight := 200, centeryfrac := 0, viewz := 0, weapon := none }
    sdlEvents := []
    now := 1000
    sendOk := true
    surfaceOk := true
    saveOk := true
    inbound := pendingKeyEventMsg }

set_option maxRecDepth 2000 in
/-- Claim C5 counterexample: with a KEY_EVENT pending on the socket, a tick
of the frame hook leaves the inbound bytes untouched, performs no receive
operation, and does not enqueue anything on the key queue — the pending
KEY_EVENT is neither parsed nor enqueued, contradicting the claimed
poll-and-process step. -/
theorem drawframe_does_not_poll_transport :
    (DG_DrawFrame id dgSt0 dgInp0).2.2 = pendingKeyEventMsg ∧
    SockOp.recvKey ∉ (DG_DrawFrame id dgSt0 dgInp0).2.1 ∧
    (DG_DrawFrame id dgSt0 dgInp0).1 = some
      { frameCount := 1, keyQ := dgSt0.keyQ, lastScreenshotTime := 1000 } := by
  refine ⟨by decide, by decide, by decide⟩

/-- Claim C5 (amended): on every tick the frame hook first sends the
serialized frame, then handles SDL keyboard events only; it never polls the
socket transport — no receive operation occurs in the tick's socket trace
and the pending inbound bytes are untouched, whatever the state and input. -/
theorem drawframe_transport_trace (conv : Nat → Nat) (st : DGState) (inp : DGInput) :
    (DG_DrawFrame conv st inp).2.2 = inp.inbound ∧
    SockOp.recvKey ∉ (DG_DrawFrame conv st inp).2.1 ∧
    ∃ rest, (DG_DrawFrame conv st inp).2.1 =
      SockOp.sendFrame (extract_vectors_to_json
        { inp.rframe with frameCount := st.frameCount }) :: rest := by
  unfold DG_DrawFrame
  split
  · exact ⟨rfl, by simp, [], rfl⟩
  · split
    · exact ⟨rfl, by simp, [], rfl⟩
    · split
      · exact ⟨rfl, by simp, [], rfl⟩
      · split
        · refine ⟨rfl, ?_, _, rfl⟩
          intro hmem
          rcases List.mem_cons.mp hmem with h | h
          · exact SockOp.noConfusion h
          · split at h
            · rcases List.mem_singleton.mp h with h'
              exact SockOp.noConfusion h'
            · exact absurd h (List.not_mem_nil _)
        · exact ⟨rfl, by simp, [], rfl⟩
